import Mathlib

set_option maxHeartbeats 1000000

namespace DoneHub

/-! Shallow embedding of the channel routing, load-balancing and retry engine of
done-hub: `model/balancer.go` (ChannelsChooser: cooldowns, sticky sessions,
weighted selection, tier walk, counting) and the relay retry orchestration
(`Relay`, `RelayHandler`, `shouldRetry`, `shouldRetryBadRequest`,
`shouldCooldowns`, `GetProvider`/`fetchChannel`).  Machine integers are modelled
by `Nat`/`Int` (no overflow is relevant at the modelled scales), Go maps by
functions into `Option`, the concurrent `sync.Map` cooldown store by its
sequential (single-request) semantics, and wall-clock time by explicit
timestamps passed to each operation. -/

/-- Runtime configuration values read from the `config` package (whose source is
not part of the modelled tree); each field is one named config variable and is
kept abstract. -/
structure Config where
  retryTimes : Nat
  retryTimeOut : Int
  retryCooldownSeconds : Int
  redisEnabled : Bool
  modelNameCaseInsensitive : Bool
  ctAnthropic : Nat
  ctBedrock : Nat

/-- The fields of `model.Channel` consumed by the balancer and the retry engine
(the struct itself lives in the config store; the chooser holds read-only
copies).  `allowStream` abstracts the `AllowStream(modelName)` method. -/
structure Channel where
  id : Nat
  type : Nat
  weight : Int
  onlyChat : Bool
  allowStream : String → Bool

/-- model.ChannelChoice: a channel plus its in-memory disable flag. -/
structure ChannelChoice where
  channel : Channel
  disable : Bool

/-- model.ChannelsFilterFunc: `true` means the channel is skipped. -/
def ChannelsFilterFunc : Type := Nat → ChannelChoice → Bool

/-- model.FilterChannelId: skip a channel whose id is in the skip-list. -/
def FilterChannelId (skipChannelIds : List Nat) : ChannelsFilterFunc :=
  fun channelId _ => skipChannelIds.contains channelId

/-- model.FilterChannelTypes: skip channels whose type is not in the allow-list. -/
def FilterChannelTypes (channelTypes : List Nat) : ChannelsFilterFunc :=
  fun _ choice => !(channelTypes.contains choice.channel.type)

/-- model.FilterOnlyChat: skip only-chat channels. -/
def FilterOnlyChat : ChannelsFilterFunc :=
  fun _ choice => choice.channel.onlyChat

/-- model.FilterDisabledStream: skip channels that do not allow streaming for
the model. -/
def FilterDisabledStream (modelName : String) : ChannelsFilterFunc :=
  fun _ choice => !(choice.channel.allowStream modelName)

/-- model.ChannelsChooser.  `channels` is the id-indexed map of choices, `rule`
maps a group to its model map (the Go map is represented as an association
list, map iteration order becoming list order), each model mapping to its
descending-priority tiers of channel ids, and `cooldowns` is the
`(channelId, model)`-keyed expiry store (the Go key `"%d:%s"` is injective, so
it is modelled as the pair). -/
structure Chooser where
  channels : Nat → Option ChannelChoice
  rule : String → Option (List (String × List (List Nat)))
  cooldowns : Nat → String → Option Int

/-- Lookup of one model inside a group's model map. -/
def lookupModel (ms : List (String × List (List Nat))) (modelName : String) :
    Option (List (List Nat)) :=
  (ms.find? (fun p => p.1 == modelName)).map (fun p => p.2)

/-- Pointwise update of the cooldown store at one key. -/
def storeCooldown (cc : Chooser) (channelId : Nat) (modelName : String)
    (expiry : Int) : Chooser :=
  { cc with cooldowns := fun i m =>
      if i = channelId ∧ m = modelName then some expiry else cc.cooldowns i m }

/-- model.ChannelsChooser.SetCooldownsWithDuration, at explicit time `now`,
with the `LoadOrStore`/`CompareAndSwap` pair given its sequential semantics:
absent key stores `now + d`; a still-active entry is left alone; an expired
entry is replaced. -/
def SetCooldownsWithDuration (cc : Chooser) (now : Int) (channelId : Nat)
    (modelName : String) (durationSeconds : Int) : Chooser × Bool :=
  if channelId = 0 ∨ modelName = "" ∨ durationSeconds = 0 then (cc, false)
  else
    let newCooldownTime := now + durationSeconds
    match cc.cooldowns channelId modelName with
    | none => (storeCooldown cc channelId modelName newCooldownTime, true)
    | some existingCooldownTime =>
      if now < existingCooldownTime then (cc, true)
      else (storeCooldown cc channelId modelName newCooldownTime, true)

/-- model.ChannelsChooser.SetCooldowns: the configured default duration. -/
def SetCooldowns (cfg : Config) (cc : Chooser) (now : Int) (channelId : Nat)
    (modelName : String) : Chooser × Bool :=
  SetCooldownsWithDuration cc now channelId modelName cfg.retryCooldownSeconds

/-- model.ChannelsChooser.IsInCooldown at explicit query time `now`. -/
def IsInCooldown (cc : Chooser) (now : Int) (channelId : Nat)
    (modelName : String) : Bool :=
  if channelId = 0 ∨ modelName = "" then false
  else
    match cc.cooldowns channelId modelName with
    | none => false
    | some cooldownTime => now < cooldownTime

/-- The sticky-session request context: `sessionHashFor` abstracts
`generateSessionHashForChannel`, which derives the hash from the request and
the channel type only. -/
structure Ctx where
  sessionHashFor : Nat → String

/-- The external Redis sticky-session store, read through
`redis.GetStickySessionMapping(sessionHash, channelType)`; `none` stands for an
error or a miss. -/
structure Redis where
  mapping : String → Nat → Option Int

/-- Observable effect of one sticky-session read. -/
inductive StickyEffect
  | untouched
  | deleted
  | renewed
  deriving DecidableEq, Repr

/-- model.ChannelsChooser.checkStickySession: return the mapped channel iff it
exists, is enabled, sits in the candidate list, is not cooling down for the
model and passes every filter; delete the mapping when any of those checks
fails. -/
def checkStickySession (cfg : Config) (cc : Chooser) (now : Int)
    (channelIds : List Nat) (filters : List ChannelsFilterFunc)
    (modelName : String) (ctx : Option Ctx) (redis : Redis) :
    Option Channel × StickyEffect :=
  match ctx with
  | none => (none, .untouched)
  | some gctx =>
    if ¬cfg.redisEnabled ∨ channelIds.isEmpty then (none, .untouched)
    else
      match channelIds.head? with
      | none => (none, .untouched)
      | some firstId =>
        match cc.channels firstId with
        | none => (none, .untouched)
        | some firstChoice =>
          let sessionHash := gctx.sessionHashFor firstChoice.channel.type
          if sessionHash = "" then (none, .untouched)
          else
            let channelType := firstChoice.channel.type
            match redis.mapping sessionHash channelType with
            | none => (none, .untouched)
            | some mappedChannelId =>
              if mappedChannelId ≤ 0 then (none, .untouched)
              else
                match cc.channels mappedChannelId.toNat with
                | none => (none, .deleted)
                | some mappedChoice =>
                  if mappedChoice.disable then (none, .deleted)
                  else if ¬channelIds.contains mappedChannelId.toNat then
                    (none, .deleted)
                  else if IsInCooldown cc now mappedChannelId.toNat modelName then
                    (none, .deleted)
                  else if filters.any (fun f => f mappedChannelId.toNat mappedChoice) then
                    (none, .deleted)
                  else (some mappedChoice.channel, .renewed)

/-- Eligibility test shared by `balancer` and `countValidChannels` (both Go
loops apply the identical `continue` conditions: present, enabled, not cooling
down, passing every filter). -/
def channelEligible (cc : Chooser) (now : Int) (filters : List ChannelsFilterFunc)
    (modelName : String) (channelId : Nat) : Option ChannelChoice :=
  match cc.channels channelId with
  | none => none
  | some choice =>
    if choice.disable then none
    else if IsInCooldown cc now channelId modelName then none
    else if filters.any (fun f => f channelId choice) then none
    else some choice

/-- The `validChannels` list built by model.ChannelsChooser.balancer. -/
def validChannels (cc : Chooser) (now : Int) (filters : List ChannelsFilterFunc)
    (modelName : String) (channelIds : List Nat) : List ChannelChoice :=
  channelIds.filterMap (channelEligible cc now filters modelName)

/-- The `totalWeight` accumulated by model.ChannelsChooser.balancer. -/
def totalWeight (choices : List ChannelChoice) : Int :=
  (choices.map (fun choice => choice.channel.weight)).sum

/-- The subtracting walk of model.ChannelsChooser.balancer: subtract each
candidate's weight from the draw and return the first candidate driving it
negative. -/
def walkWeights (r : Int) : List ChannelChoice → Option Channel
  | [] => none
  | choice :: rest =>
    let r2 := r - choice.channel.weight
    if r2 < 0 then some choice.channel else walkWeights r2 rest

/-- model.ChannelsChooser.balancer: sticky session first, then the weighted
random selection over the eligible candidates; `rand` abstracts
`rand.Intn`, mapping the total weight to the draw. -/
def balancer (cfg : Config) (cc : Chooser) (now : Int) (channelIds : List Nat)
    (filters : List ChannelsFilterFunc) (modelName : String) (ctx : Option Ctx)
    (redis : Redis) (rand : Int → Int) : Option Channel :=
  match (checkStickySession cfg cc now channelIds filters modelName ctx redis).1 with
  | some stickyChannel => some stickyChannel
  | none =>
    let valid := validChannels cc now filters modelName channelIds
    match valid with
    | [] => none
    | [single] => some single.channel
    | _ :: _ :: _ => walkWeights (rand (totalWeight valid)) valid

/-- The counting loop of model.ChannelsChooser.countValidChannels. -/
def countValidChannels (cc : Chooser) (now : Int) (channelIds : List Nat)
    (filters : List ChannelsFilterFunc) (modelName : String) : Nat :=
  channelIds.countP (fun channelId =>
    (channelEligible cc now filters modelName channelId).isSome)

/-- The wildcard matchers `utils.GetModelsWithMatch` and
`utils.GetModelsWithMatchCaseInsensitive` (the `utils` package is outside the
modelled tree, so both are kept abstract; an empty result means no match). -/
structure Matchers where
  matchW : String → String
  matchCI : String → String

/-- The inline case-insensitive exact search over a group's model map shared by
`Next` and `GetMatchedModelName` (a Go map-range loop with `break`; iteration
order becomes list order). -/
def findCaseInsensitive (ms : List (String × List (List Nat)))
    (modelName : String) : String :=
  match ms.find? (fun p => p.1.toLower == modelName.toLower) with
  | some p => p.1
  | none => ""

/-- The model-name fallback resolution shared by `Next` and
`GetMatchedModelName`: case-insensitive exact match when enabled, then the
case-insensitive wildcard matcher, then the original wildcard matcher. -/
def matchFallback (cfg : Config) (mats : Matchers)
    (ms : List (String × List (List Nat))) (modelName : String) : String :=
  let ci :=
    if cfg.modelNameCaseInsensitive then
      let exactCI := findCaseInsensitive ms modelName
      if exactCI = "" then mats.matchCI modelName else exactCI
    else ""
  if ci = "" then mats.matchW modelName else ci

/-- model.ChannelsChooser.GetMatchedModelName: exact key, else the fallback
resolution; `none` models the error returns. -/
def GetMatchedModelName (cfg : Config) (mats : Matchers) (cc : Chooser)
    (group modelName : String) : Option String :=
  match cc.rule group with
  | none => none
  | some ms =>
    if (lookupModel ms modelName).isSome then some modelName
    else
      let matchModel := matchFallback cfg mats ms modelName
      if matchModel = "" then none else some matchModel

/-- The per-tier loop shared by `Next` and `NextByValidatedModel`: invoke the
balancer tier by tier and return the first hit. -/
def tierWalk (cfg : Config) (cc : Chooser) (now : Int)
    (filters : List ChannelsFilterFunc) (modelName : String) (ctx : Option Ctx)
    (redis : Redis) (rand : Int → Int) : List (List Nat) → Option Channel
  | [] => none
  | tier :: rest =>
    match balancer cfg cc now tier filters modelName ctx redis rand with
    | some channel => some channel
    | none => tierWalk cfg cc now filters modelName ctx redis rand rest

/-- model.ChannelsChooser.Next: group lookup, exact-then-fallback model lookup,
then the priority tier walk; the balancer is invoked with a nil gin context, so
the sticky-session path is inert.  `none` collapses the error returns. -/
def Next (cfg : Config) (mats : Matchers) (cc : Chooser) (now : Int)
    (group modelName : String) (filters : List ChannelsFilterFunc)
    (redis : Redis) (rand : Int → Int) : Option Channel :=
  match cc.rule group with
  | none => none
  | some ms =>
    let tiers? :=
      match lookupModel ms modelName with
      | some tiers => some tiers
      | none => lookupModel ms (matchFallback cfg mats ms modelName)
    match tiers? with
    | none => none
    | some tiers =>
      if tiers.isEmpty then none
      else tierWalk cfg cc now filters modelName none redis rand tiers

/-- model.ChannelsChooser.NextByValidatedModel: like `Next` but without the
model-name fallback, and with the gin context passed through to the balancer. -/
def NextByValidatedModel (cfg : Config) (cc : Chooser) (now : Int)
    (group validatedModelName : String) (ctx : Option Ctx)
    (filters : List ChannelsFilterFunc) (redis : Redis) (rand : Int → Int) :
    Option Channel :=
  match cc.rule group with
  | none => none
  | some ms =>
    match lookupModel ms validatedModelName with
    | none => none
    | some tiers =>
      if tiers.isEmpty then none
      else tierWalk cfg cc now filters validatedModelName ctx redis rand tiers

/-- model.ChannelsChooser.CountAvailableChannels: the direct group/model lookup
(no fallback resolution) followed by the per-tier eligibility count. -/
def CountAvailableChannels (cc : Chooser) (now : Int) (group modelName : String)
    (filters : List ChannelsFilterFunc) : Nat :=
  match cc.rule group with
  | none => 0
  | some ms =>
    match lookupModel ms modelName with
    | none => 0
    | some tiers =>
      if tiers.isEmpty then 0
      else (tiers.map (fun tier => countValidChannels cc now tier filters modelName)).sum

/-- The fields of types.OpenAIErrorWithStatusCode consumed by the retry engine. -/
structure ApiError where
  statusCode : Nat
  message : String
  param : String
  errType : String
  localError : Bool
  rateLimitResetAt : Int
  deriving DecidableEq, Repr

/-- Substring test modelling Go's `strings.Contains`. -/
def strContains (s sub : String) : Bool := decide (sub.data <:+: s.data)

/-- The explicit channel pin carried by the request
(`specific_channel_id` / `specific_channel_id_ignore`). -/
structure PinState where
  specificChannelId : Nat
  ignore : Bool
  deriving DecidableEq, Repr

/-- relay.shouldRetryBadRequest: the provider-specific status-400 allow-list. -/
def shouldRetryBadRequest (cfg : Config) (channelType : Nat) (apiErr : ApiError) :
    Bool :=
  if channelType = cfg.ctAnthropic then
    strContains apiErr.message "Your credit balance is too low"
  else if channelType = cfg.ctBedrock then
    strContains apiErr.message "Operation not allowed"
  else if apiErr.param = "INVALID_ARGUMENT" &&
      strContains apiErr.message "API key not valid" then true
  else false

/-- relay.shouldRetry: the per-failure retry decision (`none` models a nil
error pointer). -/
def shouldRetry (cfg : Config) (pin : PinState) (apiErr : Option ApiError)
    (channelType : Nat) : Bool :=
  match apiErr with
  | none => false
  | some apiErr =>
    if apiErr.localError ∨ (pin.specificChannelId > 0 ∧ ¬pin.ignore) then false
    else if apiErr.statusCode = 429 ∨ apiErr.statusCode = 307 then true
    else if apiErr.statusCode = 408 ∨ apiErr.statusCode = 504 ∨
        apiErr.statusCode = 524 then false
    else if apiErr.statusCode = 400 then shouldRetryBadRequest cfg channelType apiErr
    else if apiErr.statusCode / 100 = 5 then true
    else if apiErr.statusCode / 100 = 2 then false
    else true

/-- Result of relay.shouldCooldowns: the mutated chooser, the grown skip-list
and the `cooldownApplied` flag. -/
structure CoolOut where
  cc : Chooser
  skip : List Nat
  applied : Bool

/-- relay.shouldCooldowns at explicit time `now`: on status 429 freeze the
(channel, model) pair — with the header-supplied reset timestamp when it lies
in the future, else the configured default — and in every case append the
attempted channel id to the request's skip-list. -/
def shouldCooldowns (cfg : Config) (cc : Chooser) (now : Int) (skip : List Nat)
    (channel : Channel) (modelName : String) (apiErr : ApiError) : CoolOut :=
  let channelId := channel.id
  let frozen : Chooser × Bool :=
    if apiErr.statusCode = 429 then
      if apiErr.rateLimitResetAt > 0 then
        let durationSeconds := apiErr.rateLimitResetAt - now
        if durationSeconds > 0 then
          ((SetCooldownsWithDuration cc now channelId modelName durationSeconds).1, true)
        else ((SetCooldowns cfg cc now channelId modelName).1, true)
      else ((SetCooldowns cfg cc now channelId modelName).1, true)
    else (cc, false)
  { cc := frozen.1, skip := skip ++ [channelId], applied := frozen.2 }

/-- Which of the billing collaborator's operations one attempt invoked. -/
inductive BillingOp
  | consumed
  | undone
  | noBilling
  deriving DecidableEq, Repr

/-- The observable outcome of `relay.send()` together with the usage fields it
left behind: the typed error (if any), the done flag, the upstream-reported
completion tokens, the length of the accumulated text builder, and the
(abstract) `common.CountTokenText` value for that text. -/
structure SendOutcome where
  err : Option ApiError
  done : Bool
  completionTokens : Nat
  textLen : Nat
  textTokens : Nat

/-- The observable outcome of relay.RelayHandler. -/
structure HandlerResult where
  err : Option ApiError
  done : Bool
  billing : BillingOp
  finalCompletionTokens : Nat

/-- relay.RelayHandler: prompt-token counting, pre-quota consumption, the
attempt, the streamed-text completion-token recomputation, and the
consume-or-undo billing decision. -/
def RelayHandler (promptRes : Except ApiError Nat) (preQuotaRes : Option ApiError)
    (send : SendOutcome) : HandlerResult :=
  match promptRes with
  | .error tokenErr =>
    { err := some tokenErr, done := true, billing := .noBilling
      finalCompletionTokens := 0 }
  | .ok _ =>
    match preQuotaRes with
    | some quotaErr =>
      { err := some quotaErr, done := true, billing := .noBilling
        finalCompletionTokens := 0 }
    | none =>
      let completionTokens :=
        if send.completionTokens = 0 ∧ send.textLen > 0 then send.textTokens
        else send.completionTokens
      match send.err with
      | some apiErr =>
        { err := some apiErr, done := send.done
          billing := if completionTokens > 0 then .consumed else .undone
          finalCompletionTokens := completionTokens }
      | none =>
        { err := none, done := send.done, billing := .consumed
          finalCompletionTokens := completionTokens }

/-- The per-request routing inputs that stay fixed across the retry loop: the
pin flags, the resolved group fallback chain, the original and validated model
names, the group used for the available-channel count, and the optional
filters built by `buildChannelFilters` around the skip-list filter
(`filtersPre` models the only-chat filter, `filtersPost` the allowed-types and
disabled-stream filters). -/
structure ReqCtx where
  pin : PinState
  groupChain : List String
  origModel : String
  newModel : String
  countGroup : String
  filtersPre : List ChannelsFilterFunc
  filtersPost : List ChannelsFilterFunc

/-- relay.buildChannelFilters with the skip-list present (as it always is
inside the retry loop, `shouldCooldowns` having populated it). -/
def buildFilters (req : ReqCtx) (skip : List Nat) : List ChannelsFilterFunc :=
  req.filtersPre ++ FilterChannelId skip :: req.filtersPost

/-- The config store's `GetChannelById` composed with the enabled-status check
of relay.fetchChannelById (`none` collapses both failures); the store is
outside the chooser snapshot. -/
structure Db where
  getEnabledChannelById : Nat → Option Channel

/-- relay.fetchChannel: the pinned-channel path when a specific channel is
requested without the ignore flag, else the filtered balancer selection of
relay.fetchChannelByModel. -/
def fetchChannel (cfg : Config) (cc : Chooser) (now : Int) (req : ReqCtx)
    (db : Db) (ctx : Option Ctx) (redis : Redis) (rand : Int → Int)
    (group modelName : String) (skip : List Nat) : Option Channel :=
  if req.pin.specificChannelId > 0 ∧ ¬req.pin.ignore then
    db.getEnabledChannelById req.pin.specificChannelId
  else
    NextByValidatedModel cfg cc now group modelName ctx (buildFilters req skip)
      redis rand

/-- The channel-selection core of relay.GetProvider: walk the group fallback
chain, match the model name per group, and fetch a channel from the first
group that yields one. -/
def getProviderChannel (cfg : Config) (mats : Matchers) (cc : Chooser)
    (now : Int) (req : ReqCtx) (db : Db) (ctx : Option Ctx) (redis : Redis)
    (rand : Int → Int) (skip : List Nat) : List String → Option Channel
  | [] => none
  | group :: rest =>
    match GetMatchedModelName cfg mats cc group req.origModel with
    | none => getProviderChannel cfg mats cc now req db ctx redis rand skip rest
    | some matchedModelName =>
      match fetchChannel cfg cc now req db ctx redis rand group matchedModelName skip with
      | none => getProviderChannel cfg mats cc now req db ctx redis rand skip rest
      | some channel => some channel

/-- The synthetic error produced when the wall-clock retry ceiling trips
(`common.StringErrorWrapperLocal` with type system_error and status 429). -/
def syntheticTimeoutErr : ApiError :=
  { statusCode := 429, message := "重试超时，上游负载已饱和，请稍后再试"
    param := "", errType := "system_error", localError := true
    rateLimitResetAt := 0 }

/-- The environment a retry loop runs in: configuration, the fixed request
context, the abstract matchers and config store, the external redis snapshot
and random draw per iteration, the per-iteration clock readings, the
post-selection provider-setup failures, and each attempt's outcome. -/
structure World where
  cfg : Config
  mats : Matchers
  req : ReqCtx
  db : Db
  ctx : Option Ctx
  redis : Nat → Redis
  rand : Nat → Int → Int
  nowAt : Nat → Int
  elapsed : Nat → Int
  mapFail : Nat → Bool
  attempt : Nat → Channel → Option ApiError × Bool

/-- The mutable per-request state threaded through the retry loop; `attempted`
is the ghost list of channel ids attempted so far (first attempt included). -/
structure LoopSt where
  cc : Chooser
  skip : List Nat
  channel : Channel
  apiErr : ApiError
  success : Bool
  attemptCount : Nat
  attempted : List Nat
  timedOut : Bool

/-- The retry loop of relay.Relay (`for i := actualRetryTimes; i > 0; i--`):
freeze the failed channel and grow the skip-list, stop on the wall-clock
ceiling with the synthetic error, reselect a provider, attempt, and continue
only on a retryable failure. -/
def retryLoop (w : World) : Nat → LoopSt → LoopSt
  | 0, s => s
  | Nat.succ i, s =>
    let n := s.attemptCount
    let co := shouldCooldowns w.cfg s.cc (w.nowAt n) s.skip s.channel
      w.req.newModel s.apiErr
    let s1 : LoopSt := { s with cc := co.cc, skip := co.skip }
    if w.elapsed n > w.cfg.retryTimeOut then
      { s1 with apiErr := syntheticTimeoutErr, timedOut := true }
    else
      match getProviderChannel w.cfg w.mats s1.cc (w.nowAt n) w.req w.db w.ctx
          (w.redis n) (w.rand n) s1.skip w.req.groupChain with
      | none => s1
      | some channel =>
        if w.mapFail n then s1
        else
          let s2 : LoopSt :=
            { s1 with
              channel := channel
              attemptCount := n + 1
              attempted := s1.attempted ++ [channel.id] }
          match w.attempt (n + 1) channel with
          | (none, _) => { s2 with success := true }
          | (some apiErr, done) =>
            let s3 : LoopSt := { s2 with apiErr := apiErr }
            if done ∨ ¬shouldRetry w.cfg w.req.pin (some apiErr) channel.type then s3
            else retryLoop w i s3

/-- The retry-phase outcome: final loop state plus the frozen channel count and
the effective budget. -/
structure PhaseOut where
  final : LoopSt
  totalChannelsAtStart : Nat
  actualRetryTimes : Nat

/-- The retry orchestration of relay.Relay after a failed first attempt: freeze
the available-channel count, zero the budget when the first failure is not
retryable, cap it by the frozen count, and run the loop from attempt
counter 1. -/
def relayRetryPhase (w : World) (cc0 : Chooser) (chan0 : Channel)
    (firstErr : ApiError) (firstDone : Bool) : PhaseOut :=
  let retryTimes := w.cfg.retryTimes
  let totalChannelsAtStart :=
    CountAvailableChannels cc0 (w.nowAt 0) w.req.countGroup w.req.newModel []
  let retryTimes :=
    if firstDone ∨ ¬shouldRetry w.cfg w.req.pin (some firstErr) chan0.type then 0
    else retryTimes
  let actualRetryTimes := min retryTimes totalChannelsAtStart
  let s0 : LoopSt :=
    { cc := cc0, skip := [], channel := chan0, apiErr := firstErr
      success := false, attemptCount := 1, attempted := [chan0.id]
      timedOut := false }
  { final := retryLoop w actualRetryTimes s0
    totalChannelsAtStart := totalChannelsAtStart
    actualRetryTimes := actualRetryTimes }

/-- Registry invariant established by `Load` (each choice is stored under its
own channel id: `newChannels[channel.Id] = choice`). -/
def ChooserWF (cc : Chooser) : Prop :=
  ∀ id choice, cc.channels id = some choice → choice.channel.id = id

/-- Sum of the weights of the first `i` candidates (the lower end of candidate
`i`'s draw interval). -/
def weightBefore : List ChannelChoice → Nat → Int
  | _, 0 => 0
  | [], _ + 1 => 0
  | choice :: rest, i + 1 => choice.channel.weight + weightBefore rest i

/-! Concrete fixtures used by counterexamples and witnesses. -/

/-- A configuration fixture. -/
def cexConfig : Config :=
  { retryTimes := 1, retryTimeOut := 60, retryCooldownSeconds := 60
    redisEnabled := false, modelNameCaseInsensitive := false
    ctAnthropic := 14, ctBedrock := 33 }

/-- An enabled, weight-1 channel fixture. -/
def cexChan (i : Nat) : Channel :=
  { id := i, type := 0, weight := 1, onlyChat := false
    allowStream := fun _ => true }

/-- A chooser with no channels, rules or cooldowns. -/
def emptyChooser : Chooser :=
  { channels := fun _ => none, rule := fun _ => none
    cooldowns := fun _ _ => none }

/-- A chooser whose group g serves model m from two enabled channels 1 and 2
in one tier. -/
def cexChooser : Chooser :=
  { channels := fun i =>
      if i = 1 ∨ i = 2 then some { channel := cexChan i, disable := false }
      else none
    rule := fun g => if g = "g" then some [("m", [[1, 2]])] else none
    cooldowns := fun _ _ => none }

/-- A chooser whose group g serves only the wildcard model pattern gpt-*. -/
def cexWildChooser : Chooser :=
  { channels := fun i =>
      if i = 1 then some { channel := cexChan 1, disable := false } else none
    rule := fun g => if g = "g" then some [("gpt-*", [[1]])] else none
    cooldowns := fun _ _ => none }

/-- Matchers that never match. -/
def cexNoMatch : Matchers := { matchW := fun _ => "", matchCI := fun _ => "" }

/-- Matchers realizing the wildcard-suffix rule on one input: pattern gpt-*
matches model gpt-4 (the utils matcher itself is outside the modelled tree). -/
def cexWildMatch : Matchers :=
  { matchW := fun name => if name = "gpt-4" then "gpt-*" else ""
    matchCI := fun _ => "" }

/-- An empty sticky-session store. -/
def cexRedis : Redis := { mapping := fun _ _ => none }

/-- A retryable upstream-500 error fixture. -/
def cexErr500 : ApiError :=
  { statusCode := 500, message := "boom", param := "", errType := "api_error"
    localError := false, rateLimitResetAt := 0 }

/-- A 429 error fixture carrying a reset timestamp one second in the future of
time 1000. -/
def cexErr429 : ApiError :=
  { statusCode := 429, message := "rate limited", param := ""
    errType := "api_error", localError := false, rateLimitResetAt := 1001 }

/-- A request context fixture: no pin, one group g, model m, no optional
filters. -/
def cexReq : ReqCtx :=
  { pin := { specificChannelId := 0, ignore := false }
    groupChain := ["g"], origModel := "m", newModel := "m", countGroup := "g"
    filtersPre := [], filtersPost := [] }

/-- A world fixture: budget 1 and ceiling 60, clock still inside the ceiling at
the first in-loop check but beyond it after the first retry attempt, every
attempt failing with a retryable 500. -/
def cexWorld : World :=
  { cfg := cexConfig, mats := cexNoMatch, req := cexReq
    db := { getEnabledChannelById := fun _ => none }
    ctx := none, redis := fun _ => cexRedis, rand := fun _ _ => 0
    nowAt := fun _ => 0
    elapsed := fun n => if n ≥ 2 then 100 else 0
    mapFail := fun _ => false
    attempt := fun _ _ => (some cexErr500, false) }

/-! Helper lemmas about the cooldown store. -/

lemma setCooldown_fresh (cc : Chooser) (now : Int) (channelId : Nat)
    (modelName : String) (d : Int) (hid : channelId ≠ 0) (hm : modelName ≠ "")
    (hd : d ≠ 0) (hfresh : ∀ t, cc.cooldowns channelId modelName = some t → t ≤ now) :
    (SetCooldownsWithDuration cc now channelId modelName d).1.cooldowns
      channelId modelName = some (now + d) := by
  unfold SetCooldownsWithDuration
  rw [if_neg (by simp [hid, hm, hd])]
  cases h : cc.cooldowns channelId modelName with
  | none => simp [storeCooldown]
  | some t =>
    have ht : ¬ now < t := not_lt.mpr (hfresh t h)
    simp [ht, storeCooldown]

lemma setCooldown_active (cc : Chooser) (now : Int) (channelId : Nat)
    (modelName : String) (d : Int) (t : Int)
    (hsome : cc.cooldowns channelId modelName = some t) (ht : now < t) :
    (SetCooldownsWithDuration cc now channelId modelName d).1 = cc := by
  unfold SetCooldownsWithDuration
  by_cases hz : channelId = 0 ∨ modelName = "" ∨ d = 0
  · rw [if_pos hz]
  · rw [if_neg hz]
    simp [hsome, ht]

lemma setCooldown_channels (cc : Chooser) (now : Int) (channelId : Nat)
    (modelName : String) (d : Int) :
    (SetCooldownsWithDuration cc now channelId modelName d).1.channels = cc.channels := by
  unfold SetCooldownsWithDuration
  split
  · rfl
  · cases cc.cooldowns channelId modelName with
    | none => rfl
    | some t =>
      dsimp only
      split
      · rfl
      · rfl

lemma shouldCooldowns_channels (cfg : Config) (cc : Chooser) (now : Int)
    (skip : List Nat) (channel : Channel) (modelName : String) (apiErr : ApiError) :
    (shouldCooldowns cfg cc now skip channel modelName apiErr).cc.channels = cc.channels := by
  unfold shouldCooldowns SetCooldowns
  dsimp only
  split
  · split
    · split
      · exact setCooldown_channels ..
      · exact setCooldown_channels ..
    · exact setCooldown_channels ..
  · rfl

lemma shouldCooldowns_skip (cfg : Config) (cc : Chooser) (now : Int)
    (skip : List Nat) (channel : Channel) (modelName : String) (apiErr : ApiError) :
    (shouldCooldowns cfg cc now skip channel modelName apiErr).skip
      = skip ++ [channel.id] := rfl

/-- C3.  For every attempt whose prompt counting and pre-quota consumption
succeeded, exactly one of Consume and Undo is invoked: Undo exactly when the
attempt failed with zero delivered completion tokens (after the streamed-text
recomputation), and Consume otherwise; no attempt triggers both. -/
theorem c3_billing_consume_or_undo (promptTokens : Nat) (send : SendOutcome) :
    ((RelayHandler (Except.ok promptTokens) none send).billing = BillingOp.undone ↔
      send.err.isSome = true ∧
        (RelayHandler (Except.ok promptTokens) none send).finalCompletionTokens = 0) ∧
    ((RelayHandler (Except.ok promptTokens) none send).billing = BillingOp.consumed ↔
      ¬(send.err.isSome = true ∧
        (RelayHandler (Except.ok promptTokens) none send).finalCompletionTokens = 0)) ∧
    ¬((RelayHandler (Except.ok promptTokens) none send).billing = BillingOp.consumed ∧
      (RelayHandler (Except.ok promptTokens) none send).billing = BillingOp.undone) := by
  cases hse : send.err with
  | none => simp [RelayHandler, hse]
  | some e =>
    by_cases hb : send.completionTokens = 0 ∧ send.textLen > 0
    · by_cases h0 : send.textTokens = 0
      · simp [RelayHandler, hse, hb, h0]
      · simp [RelayHandler, hse, hb, h0, Nat.pos_of_ne_zero h0]
    · by_cases h0 : send.completionTokens = 0
      · simp [RelayHandler, hse, hb, h0]
      · simp [RelayHandler, hse, hb, h0, Nat.pos_of_ne_zero h0]

/-- C4.  The retry decision: local/config errors and pinned channels without
the ignore flag are fatal; 429 and 307 retry; 408, 504 and 524 do not; 400
retries exactly for the provider allow-list (Anthropic low-credit, Bedrock
operation-not-allowed, otherwise the Gemini invalid-API-key variant); the
remaining 5xx retry; 2xx do not; anything else retries. -/
theorem c4_shouldRetry_classification (cfg : Config) (pin : PinState)
    (channelType : Nat) (e : ApiError) :
    (e.localError = true → shouldRetry cfg pin (some e) channelType = false) ∧
    (pin.specificChannelId > 0 → pin.ignore = false →
      shouldRetry cfg pin (some e) channelType = false) ∧
    (e.localError = false → (pin.specificChannelId = 0 ∨ pin.ignore = true) →
      ((e.statusCode = 429 ∨ e.statusCode = 307 →
          shouldRetry cfg pin (some e) channelType = true) ∧
       (e.statusCode = 408 ∨ e.statusCode = 504 ∨ e.statusCode = 524 →
          shouldRetry cfg pin (some e) channelType = false) ∧
       (e.statusCode = 400 →
          (shouldRetry cfg pin (some e) channelType = true ↔
            ((channelType = cfg.ctAnthropic ∧
                strContains e.message "Your credit balance is too low" = true) ∨
             (channelType ≠ cfg.ctAnthropic ∧ channelType = cfg.ctBedrock ∧
                strContains e.message "Operation not allowed" = true) ∨
             (channelType ≠ cfg.ctAnthropic ∧ channelType ≠ cfg.ctBedrock ∧
                e.param = "INVALID_ARGUMENT" ∧
                strContains e.message "API key not valid" = true)))) ∧
       (e.statusCode / 100 = 5 → e.statusCode ≠ 504 → e.statusCode ≠ 524 →
          shouldRetry cfg pin (some e) channelType = true) ∧
       (e.statusCode / 100 = 2 → shouldRetry cfg pin (some e) channelType = false) ∧
       (e.statusCode ≠ 429 → e.statusCode ≠ 307 → e.statusCode ≠ 408 →
        e.statusCode ≠ 504 → e.statusCode ≠ 524 → e.statusCode ≠ 400 →
        e.statusCode / 100 ≠ 5 → e.statusCode / 100 ≠ 2 →
          shouldRetry cfg pin (some e) channelType = true))) := by
  refine ⟨fun hl => by simp [shouldRetry, hl], fun h1 h2 => by simp [shouldRetry, h1, h2],
    fun hl hp => ?_⟩
  have hgate : ¬((e.localError : Prop) ∨ (pin.specificChannelId > 0 ∧ ¬(pin.ignore : Prop))) := by
    rcases hp with h | h <;> simp [hl, h]
  refine ⟨?_, ?_, ?_, ?_, ?_, ?_⟩
  · rintro (h | h) <;> simp only [shouldRetry, if_neg hgate] <;> simp [h]
  · rintro (h | h | h) <;> simp only [shouldRetry, if_neg hgate] <;> simp [h]
  · intro h
    simp only [shouldRetry, if_neg hgate]
    rw [if_neg (by omega), if_neg (by omega), if_pos h, shouldRetryBadRequest]
    constructor
    · intro hr
      by_cases ha : channelType = cfg.ctAnthropic
      · rw [if_pos ha] at hr
        exact Or.inl ⟨ha, hr⟩
      · rw [if_neg ha] at hr
        by_cases hb : channelType = cfg.ctBedrock
        · rw [if_pos hb] at hr
          exact Or.inr (Or.inl ⟨ha, hb, hr⟩)
        · rw [if_neg hb] at hr
          refine Or.inr (Or.inr ⟨ha, hb, ?_⟩)
          by_cases hc : e.param = "INVALID_ARGUMENT" ∧
              strContains e.message "API key not valid" = true
          · exact hc
          · rw [if_neg (by simpa [Bool.and_eq_true, decide_eq_true_iff] using hc)] at hr
            exact absurd hr (by simp)
    · rintro (⟨ha, hmsg⟩ | ⟨ha, hb, hmsg⟩ | ⟨ha, hb, hparam, hmsg⟩)
      · rw [if_pos ha]
        exact hmsg
      · rw [if_neg ha, if_pos hb]
        exact hmsg
      · rw [if_neg ha, if_neg hb, if_pos (by simp [hparam, hmsg])]
  · intro h5 h504 h524
    rw [shouldRetry]
    rw [if_neg hgate, if_neg (by omega), if_neg (by omega), if_neg (by omega), if_pos h5]
  · intro h2
    rw [shouldRetry]
    rw [if_neg hgate, if_neg (by omega), if_neg (by omega), if_neg (by omega),
      if_neg (by omega), if_pos h2]
  · intro n429 n307 n408 n504 n524 n400 n5 n2
    rw [shouldRetry]
    rw [if_neg hgate, if_neg (by omega), if_neg (by omega), if_neg (by omega),
      if_neg n5, if_neg n2]

/-- C4 witness: a plain 500 with no pin and no local flag is retryable. -/
theorem c4_witness :
    shouldRetry cexConfig { specificChannelId := 0, ignore := false }
      (some cexErr500) 0 = true :=
  ((c4_shouldRetry_classification cexConfig
      { specificChannelId := 0, ignore := false } 0 cexErr500).2.2
    rfl (Or.inl rfl)).2.2.2.1 rfl (by decide) (by decide)

/-- C5 counterexample: with fallback 60s and a reset timestamp one second
ahead (now 1000, resetAt 1001), the stored expiry is 1001 — duration 1 —
while max(resetAt-now, fallbackSeconds) = 60 would give expiry 1060; the
claimed duration is not applied. -/
theorem c5_counterexample :
    (shouldCooldowns cexConfig cexChooser 1000 [] (cexChan 1) "m"
        cexErr429).cc.cooldowns 1 "m" = some 1001 ∧
    (1001 : Int) ≠ 1000 + max (1001 - 1000) cexConfig.retryCooldownSeconds := by
  exact ⟨by decide, by decide⟩

/-- C5 amended: on a 429 with a supplied reset timestamp the cooldown expiry
is exactly the reset timestamp (duration resetAt - now, not its max with the
fallback) whenever that lies in the future; when the supplied timestamp is not
in the future, or none is supplied, the configured default duration is
applied.  Stated for a (channel, model) pair with no still-active entry. -/
theorem c5_cooldown_duration (cfg : Config) (cc : Chooser) (now : Int)
    (skip : List Nat) (channel : Channel) (modelName : String) (apiErr : ApiError)
    (hs : apiErr.statusCode = 429) (hid : channel.id ≠ 0) (hm : modelName ≠ "")
    (hfresh : ∀ t, cc.cooldowns channel.id modelName = some t → t ≤ now) :
    (0 < apiErr.rateLimitResetAt → 0 < apiErr.rateLimitResetAt - now →
      (shouldCooldowns cfg cc now skip channel modelName apiErr).cc.cooldowns
        channel.id modelName = some apiErr.rateLimitResetAt) ∧
    (0 < apiErr.rateLimitResetAt → apiErr.rateLimitResetAt - now ≤ 0 →
      cfg.retryCooldownSeconds ≠ 0 →
      (shouldCooldowns cfg cc now skip channel modelName apiErr).cc.cooldowns
        channel.id modelName = some (now + cfg.retryCooldownSeconds)) ∧
    (apiErr.rateLimitResetAt ≤ 0 → cfg.retryCooldownSeconds ≠ 0 →
      (shouldCooldowns cfg cc now skip channel modelName apiErr).cc.cooldowns
        channel.id modelName = some (now + cfg.retryCooldownSeconds)) := by
  refine ⟨fun hra hd => ?_, fun hra hd hcs => ?_, fun hra hcs => ?_⟩
  · rw [shouldCooldowns]
    simp only [if_pos hs, if_pos hra, if_pos hd]
    rw [setCooldown_fresh cc now channel.id modelName _ hid hm (by omega) hfresh]
    congr 1
    omega
  · rw [shouldCooldowns]
    simp only [if_pos hs, if_pos hra, if_neg (not_lt.mpr hd), SetCooldowns]
    exact setCooldown_fresh cc now channel.id modelName _ hid hm hcs hfresh
  · rw [shouldCooldowns]
    simp only [if_pos hs, if_neg (not_lt.mpr hra), SetCooldowns]
    exact setCooldown_fresh cc now channel.id modelName _ hid hm hcs hfresh

/-- C5 witness: now 1000, resetAt 1200 yields expiry 1200 on a fresh pair. -/
theorem c5_witness :
    (shouldCooldowns cexConfig cexChooser 1000 []
        (cexChan 1) "m"
        { statusCode := 429, message := "rate limited", param := ""
          errType := "api_error", localError := false
          rateLimitResetAt := 1200 }).cc.cooldowns 1 "m" = some 1200 :=
  (c5_cooldown_duration cexConfig cexChooser 1000 [] (cexChan 1) "m"
      { statusCode := 429, message := "rate limited", param := ""
        errType := "api_error", localError := false, rateLimitResetAt := 1200 }
      rfl (by decide) (by decide) (fun t ht => by simp [cexChooser] at ht)).1
    (by decide) (by decide)

/-- C8 counterexample: set a 100-second cooldown at time 0, then call again at
time 0 with duration 10; at query time 50 ≥ 0 + 10 the claim demands
IsInCooldown be false, but the still-active longer entry keeps it true. -/
theorem c8_counterexample :
    IsInCooldown
      (SetCooldownsWithDuration
        (SetCooldownsWithDuration emptyChooser 0 1 "m" 100).1 0 1 "m" 10).1
      50 1 "m" = true ∧
    ¬((50 : Int) < 0 + 10) := by
  exact ⟨by decide, by decide⟩

/-- C8 amended: for channel id c ≠ 0, non-empty model m and duration d > 0,
when no still-active entry exists for (c, m) at call time t, after
SetCooldownsWithDuration IsInCooldown is true exactly at query times strictly
before t + d; and a further call made while an entry is still active leaves
the store unchanged, so the window is never shortened. -/
theorem c8_cooldown_window (cc : Chooser) (t : Int) (c : Nat) (m : String)
    (d : Int) (hc : c ≠ 0) (hm : m ≠ "") (hd : 0 < d) :
    ((∀ e, cc.cooldowns c m = some e → e ≤ t) →
      ∀ q, IsInCooldown (SetCooldownsWithDuration cc t c m d).1 q c m = true ↔
        q < t + d) ∧
    (∀ e, cc.cooldowns c m = some e → t < e →
      ∀ d2, (SetCooldownsWithDuration cc t c m d2).1 = cc) := by
  constructor
  · intro hfresh q
    have hstore := setCooldown_fresh cc t c m d hc hm (by omega) hfresh
    rw [IsInCooldown, if_neg (by simp [hc, hm]), hstore]
    simp
  · intro e he ht d2
    exact setCooldown_active cc t c m d2 e he ht

/-- C8 witness: duration 10 at time 0 on a fresh store is live at 9 and dead
at 10; a second call during the window leaves the store unchanged. -/
theorem c8_witness :
    (IsInCooldown (SetCooldownsWithDuration emptyChooser 0 1 "m" 10).1 9 1 "m"
        = true) ∧
    (IsInCooldown (SetCooldownsWithDuration emptyChooser 0 1 "m" 10).1 10 1 "m"
        ≠ true) ∧
    (SetCooldownsWithDuration (SetCooldownsWithDuration emptyChooser 0 1 "m" 10).1
        0 1 "m" 3).1 = (SetCooldownsWithDuration emptyChooser 0 1 "m" 10).1 := by
  have h := c8_cooldown_window emptyChooser 0 1 "m" 10 (by decide) (by decide)
    (by decide)
  have hfresh : ∀ e, emptyChooser.cooldowns 1 "m" = some e → e ≤ 0 := by
    intro e he
    simp [emptyChooser] at he
  refine ⟨(h.1 hfresh 9).mpr (by decide), fun hq => ?_, ?_⟩
  · have := (h.1 hfresh 10).mp hq
    omega
  · have h2 := c8_cooldown_window
      (SetCooldownsWithDuration emptyChooser 0 1 "m" 10).1 0 1 "m" 10
      (by decide) (by decide) (by decide)
    exact h2.2 10 (by decide) (by decide) 3

lemma checkSticky_core (cfg : Config) (cc : Chooser) (now : Int)
    (firstId : Nat) (restIds : List Nat) (filters : List ChannelsFilterFunc)
    (modelName : String) (gctx : Ctx) (redis : Redis)
    (firstChoice : ChannelChoice) (mappedId : Int)
    (hre : cfg.redisEnabled = true)
    (hfc : cc.channels firstId = some firstChoice)
    (hh : gctx.sessionHashFor firstChoice.channel.type ≠ "")
    (hmap : redis.mapping (gctx.sessionHashFor firstChoice.channel.type)
      firstChoice.channel.type = some mappedId)
    (hpos : 0 < mappedId) :
    checkStickySession cfg cc now (firstId :: restIds) filters modelName
        (some gctx) redis =
      match cc.channels mappedId.toNat with
      | none => (none, StickyEffect.deleted)
      | some mappedChoice =>
        if mappedChoice.disable then (none, StickyEffect.deleted)
        else if ¬(firstId :: restIds).contains mappedId.toNat then
          (none, StickyEffect.deleted)
        else if IsInCooldown cc now mappedId.toNat modelName then
          (none, StickyEffect.deleted)
        else if filters.any (fun f => f mappedId.toNat mappedChoice) then
          (none, StickyEffect.deleted)
        else (some mappedChoice.channel, StickyEffect.renewed) := by
  rw [checkStickySession]
  rw [if_neg (by simp [hre])]
  simp only [List.head?, hfc, if_neg hh, hmap, if_neg (not_le.mpr hpos)]

/-- C10.  A sticky-session lookup returns the mapped channel, with the renewal
call issued, exactly when the mapping resolves to a channel that exists in the
snapshot, is not disabled, sits in the current candidate list, is not cooling
down for the model, and passes every filter; when any of these checks fails,
the mapping is deleted on that read and nothing is returned, and a returned
sticky channel is what the balancer returns, bypassing weighting. -/
theorem c10_sticky_validity (cfg : Config) (cc : Chooser) (now : Int)
    (firstId : Nat) (restIds : List Nat) (filters : List ChannelsFilterFunc)
    (modelName : String) (gctx : Ctx) (redis : Redis)
    (firstChoice : ChannelChoice) (mappedId : Int)
    (hre : cfg.redisEnabled = true)
    (hfc : cc.channels firstId = some firstChoice)
    (hh : gctx.sessionHashFor firstChoice.channel.type ≠ "")
    (hmap : redis.mapping (gctx.sessionHashFor firstChoice.channel.type)
      firstChoice.channel.type = some mappedId)
    (hpos : 0 < mappedId) :
    (cc.channels mappedId.toNat = none →
      checkStickySession cfg cc now (firstId :: restIds) filters modelName
        (some gctx) redis = (none, StickyEffect.deleted)) ∧
    (∀ mappedChoice, cc.channels mappedId.toNat = some mappedChoice →
      ((checkStickySession cfg cc now (firstId :: restIds) filters modelName
          (some gctx) redis
            = (some mappedChoice.channel, StickyEffect.renewed)) ↔
        (mappedChoice.disable = false ∧
         (firstId :: restIds).contains mappedId.toNat = true ∧
         IsInCooldown cc now mappedId.toNat modelName = false ∧
         filters.any (fun f => f mappedId.toNat mappedChoice) = false)) ∧
      (¬(mappedChoice.disable = false ∧
         (firstId :: restIds).contains mappedId.toNat = true ∧
         IsInCooldown cc now mappedId.toNat modelName = false ∧
         filters.any (fun f => f mappedId.toNat mappedChoice) = false) →
        checkStickySession cfg cc now (firstId :: restIds) filters modelName
          (some gctx) redis = (none, StickyEffect.deleted))) ∧
    (∀ ch rand,
      (checkStickySession cfg cc now (firstId :: restIds) filters modelName
        (some gctx) redis).1 = some ch →
      balancer cfg cc now (firstId :: restIds) filters modelName (some gctx)
        redis rand = some ch) := by
  have hcore := checkSticky_core cfg cc now firstId restIds filters modelName
    gctx redis firstChoice mappedId hre hfc hh hmap hpos
  refine ⟨fun hnone => by rw [hcore, hnone], fun mappedChoice hsome => ?_, ?_⟩
  · rw [hcore, hsome]
    dsimp only
    constructor
    · constructor
      · intro heq
        by_cases h1 : mappedChoice.disable = true
        · rw [if_pos h1] at heq
          simp at heq
        · rw [if_neg h1] at heq
          by_cases h2 : (firstId :: restIds).contains mappedId.toNat = true
          · rw [if_neg (not_not_intro h2)] at heq
            by_cases h3 : IsInCooldown cc now mappedId.toNat modelName = true
            · rw [if_pos h3] at heq
              simp at heq
            · rw [if_neg h3] at heq
              by_cases h4 : (filters.any fun f => f mappedId.toNat mappedChoice) = true
              · rw [if_pos h4] at heq
                simp at heq
              · simp only [Bool.not_eq_true] at h1 h3 h4
                exact ⟨h1, h2, h3, h4⟩
          · rw [if_pos h2] at heq
            simp at heq
      · rintro ⟨h1, h2, h3, h4⟩
        rw [if_neg (by simp [h1]), if_neg (not_not_intro h2), if_neg (by simp [h3]),
          if_neg (by simp [h4])]
    · intro hfail
      by_cases h1 : mappedChoice.disable = true
      · rw [if_pos h1]
      · rw [if_neg h1]
        by_cases h2 : (firstId :: restIds).contains mappedId.toNat = true
        · rw [if_neg (not_not_intro h2)]
          by_cases h3 : IsInCooldown cc now mappedId.toNat modelName = true
          · rw [if_pos h3]
          · rw [if_neg h3]
            by_cases h4 : (filters.any fun f => f mappedId.toNat mappedChoice) = true
            · rw [if_pos h4]
            · simp only [Bool.not_eq_true] at h1 h3 h4
              exact absurd ⟨h1, h2, h3, h4⟩ hfail
        · rw [if_pos h2]
  · intro ch rand hsticky
    rw [balancer, hsticky]

/-- C10 witness: with redis enabled, hash h mapped to channel 1, candidate
list [1], no cooldown and no filters, the sticky lookup returns channel 1 with
the renewal effect. -/
theorem c10_witness :
    checkStickySession { cexConfig with redisEnabled := true } cexChooser 0 [1]
        [] "m" (some { sessionHashFor := fun _ => "h" })
        { mapping := fun h t => if h = "h" ∧ t = 0 then some 1 else none }
      = (some (cexChan 1), StickyEffect.renewed) :=
  ((c10_sticky_validity { cexConfig with redisEnabled := true } cexChooser 0 1 []
      [] "m" { sessionHashFor := fun _ => "h" }
      { mapping := fun h t => if h = "h" ∧ t = 0 then some 1 else none }
      { channel := cexChan 1, disable := false } 1
      rfl rfl (by decide) rfl (by decide)).2.1
    { channel := cexChan 1, disable := false } rfl).1.mpr
    ⟨rfl, by decide, by decide, rfl⟩

/-! Helper lemmas about the weighted subtracting walk. -/

lemma totalWeight_nonneg : ∀ cs : List ChannelChoice,
    (∀ c ∈ cs, 0 ≤ c.channel.weight) → 0 ≤ totalWeight cs
  | [], _ => by simp [totalWeight]
  | c :: rest, hw => by
    have h1 := hw c (List.mem_cons_self ..)
    have h2 := totalWeight_nonneg rest (fun x hx => hw x (List.mem_cons_of_mem _ hx))
    simp only [totalWeight, List.map_cons, List.sum_cons] at h2 ⊢
    omega

lemma weightBefore_nonneg : ∀ (cs : List ChannelChoice),
    (∀ c ∈ cs, 0 ≤ c.channel.weight) → ∀ i, 0 ≤ weightBefore cs i
  | [], _, i => by cases i <;> simp [weightBefore]
  | _ :: _, hw, 0 => by simp [weightBefore]
  | c :: rest, hw, i + 1 => by
    have h1 := hw c (List.mem_cons_self ..)
    have h2 := weightBefore_nonneg rest (fun x hx => hw x (List.mem_cons_of_mem _ hx)) i
    rw [weightBefore]
    omega

lemma weightBefore_add_le_total : ∀ (cs : List ChannelChoice),
    (∀ c ∈ cs, 0 ≤ c.channel.weight) →
    ∀ i (hi : i < cs.length),
      weightBefore cs i + (cs.get ⟨i, hi⟩).channel.weight ≤ totalWeight cs
  | [], _, i, hi => by simp at hi
  | c :: rest, hw, 0, hi => by
    have hsum := totalWeight_nonneg rest (fun x hx => hw x (List.mem_cons_of_mem _ hx))
    simp only [weightBefore, totalWeight, List.map_cons, List.sum_cons, List.get]
    simp only [totalWeight] at hsum
    omega
  | c :: rest, hw, i + 1, hi => by
    have hrest := weightBefore_add_le_total rest
      (fun x hx => hw x (List.mem_cons_of_mem _ hx)) i
      (by simpa using Nat.lt_of_succ_lt_succ hi)
    simp only [weightBefore, totalWeight, List.map_cons, List.sum_cons, List.get]
    simp only [totalWeight] at hrest
    omega

lemma walkWeights_interval : ∀ (cs : List ChannelChoice) (r : Int),
    (∀ c ∈ cs, 0 ≤ c.channel.weight) →
    ∀ i (hi : i < cs.length), weightBefore cs i ≤ r →
      r < weightBefore cs i + (cs.get ⟨i, hi⟩).channel.weight →
      walkWeights r cs = some (cs.get ⟨i, hi⟩).channel
  | [], r, _, i, hi, _, _ => by simp at hi
  | c :: rest, r, hw, 0, hi, h1, h2 => by
    simp only [weightBefore, List.get] at h1 h2 ⊢
    simp only [walkWeights]
    rw [if_pos (by omega)]
  | c :: rest, r, hw, i + 1, hi, h1, h2 => by
    simp only [weightBefore, List.get] at h1 h2 ⊢
    have hpre := weightBefore_nonneg rest
      (fun x hx => hw x (List.mem_cons_of_mem _ hx)) i
    simp only [walkWeights]
    rw [if_neg (by omega)]
    exact walkWeights_interval rest (r - c.channel.weight)
      (fun x hx => hw x (List.mem_cons_of_mem _ hx)) i
      (by simpa using Nat.lt_of_succ_lt_succ hi) (by omega) (by omega)

lemma walkWeights_exists_interval : ∀ (cs : List ChannelChoice) (r : Int),
    0 ≤ r → r < totalWeight cs →
    ∃ i, ∃ hi : i < cs.length, weightBefore cs i ≤ r ∧
      r < weightBefore cs i + (cs.get ⟨i, hi⟩).channel.weight
  | [], r, h0, hr => by
    simp [totalWeight] at hr
    omega
  | c :: rest, r, h0, hr => by
    by_cases hc : r < c.channel.weight
    · refine ⟨0, by simp, by simpa [weightBefore] using h0, ?_⟩
      simpa [weightBefore] using hc
    · have hwle : c.channel.weight ≤ r := not_lt.mp hc
      have hr2 : r - c.channel.weight < totalWeight rest := by
        simp only [totalWeight, List.map_cons, List.sum_cons] at hr
        simp only [totalWeight]
        omega
      obtain ⟨i, hi, ha, hb⟩ := walkWeights_exists_interval rest
        (r - c.channel.weight) (by omega) hr2
      refine ⟨i + 1, by simpa using Nat.succ_lt_succ hi, ?_, ?_⟩
      · rw [weightBefore]
        omega
      · simp only [weightBefore, List.get]
        omega

lemma walkWeights_mem : ∀ (cs : List ChannelChoice) (r : Int) (ch : Channel),
    walkWeights r cs = some ch → ∃ choice ∈ cs, choice.channel = ch
  | [], r, ch, h => by simp [walkWeights] at h
  | c :: rest, r, ch, h => by
    simp only [walkWeights] at h
    split at h
    · exact ⟨c, List.mem_cons_self .., by simpa using h⟩
    · obtain ⟨choice, hmem, hch⟩ := walkWeights_mem rest _ ch h
      exact ⟨choice, List.mem_cons_of_mem _ hmem, hch⟩

lemma walkWeights_index_unique (cs : List ChannelChoice)
    (hnd : (cs.map (fun c => c.channel.id)).Nodup)
    (i j : Nat) (hi : i < cs.length) (hj : j < cs.length)
    (h : (cs.get ⟨i, hi⟩).channel.id = (cs.get ⟨j, hj⟩).channel.id) : i = j := by
  have him : i < (cs.map (fun c => c.channel.id)).length := by simpa using hi
  have hjm : j < (cs.map (fun c => c.channel.id)).length := by simpa using hj
  have e1 : (cs.map (fun c => c.channel.id)).get ⟨i, him⟩
      = (cs.get ⟨i, hi⟩).channel.id := by
    simp [List.get_eq_getElem, List.getElem_map]
  have e2 : (cs.map (fun c => c.channel.id)).get ⟨j, hjm⟩
      = (cs.get ⟨j, hj⟩).channel.id := by
    simp [List.get_eq_getElem, List.getElem_map]
  have hget : (cs.map (fun c => c.channel.id)).get ⟨i, him⟩
      = (cs.map (fun c => c.channel.id)).get ⟨j, hjm⟩ := by
    rw [e1, e2]
    exact h
  exact congrArg Fin.val (hnd.get_inj_iff.mp hget)

/-- C9.  For a non-empty candidate list with positive integer weights and a
draw in range, the subtracting walk always returns a candidate (the post-loop
nil branch is unreachable); it returns candidate i exactly when the draw lies
in the half-open interval of length weight i starting at the sum of the
preceding weights; and each candidate is selected for exactly weight i of the
possible draw values. -/
theorem c9_weighted_walk (cs : List ChannelChoice) (r : Int)
    (hw : ∀ c ∈ cs, 1 ≤ c.channel.weight) (h0 : 0 ≤ r) (hr : r < totalWeight cs)
    (hnd : (cs.map (fun c => c.channel.id)).Nodup) :
    (walkWeights r cs).isSome = true ∧
    (∀ i (hi : i < cs.length),
      (walkWeights r cs = some (cs.get ⟨i, hi⟩).channel ↔
        weightBefore cs i ≤ r ∧
          r < weightBefore cs i + (cs.get ⟨i, hi⟩).channel.weight)) ∧
    (∀ i (hi : i < cs.length),
      ((Finset.Ico (0 : Int) (totalWeight cs)).filter
          (fun v => (walkWeights v cs).map (fun ch => ch.id)
            = some ((cs.get ⟨i, hi⟩).channel.id))).card
        = ((cs.get ⟨i, hi⟩).channel.weight).toNat) := by
  have hw0 : ∀ c ∈ cs, 0 ≤ c.channel.weight := fun c hc => le_trans (by omega) (hw c hc)
  have hiff : ∀ (v : Int), 0 ≤ v → v < totalWeight cs →
      ∀ i (hi : i < cs.length),
        (walkWeights v cs = some (cs.get ⟨i, hi⟩).channel ↔
          weightBefore cs i ≤ v ∧
            v < weightBefore cs i + (cs.get ⟨i, hi⟩).channel.weight) := by
    intro v hv0 hvr i hi
    constructor
    · intro h
      obtain ⟨j, hj, hja, hjb⟩ := walkWeights_exists_interval cs v hv0 hvr
      have hj2 := walkWeights_interval cs v hw0 j hj hja hjb
      have hche : (cs.get ⟨i, hi⟩).channel = (cs.get ⟨j, hj⟩).channel := by
        have := h.symm.trans hj2
        exact Option.some.inj this
      have : i = j := walkWeights_index_unique cs hnd i j hi hj
        (congrArg Channel.id hche)
      subst this
      exact ⟨hja, hjb⟩
    · intro ⟨h1, h2⟩
      exact walkWeights_interval cs v hw0 i hi h1 h2
  refine ⟨?_, fun i hi => hiff r h0 hr i hi, fun i hi => ?_⟩
  · obtain ⟨j, hj, hja, hjb⟩ := walkWeights_exists_interval cs r h0 hr
    rw [walkWeights_interval cs r hw0 j hj hja hjb]
    rfl
  · have hset : (Finset.Ico (0 : Int) (totalWeight cs)).filter
        (fun v => (walkWeights v cs).map (fun ch => ch.id)
          = some ((cs.get ⟨i, hi⟩).channel.id))
        = Finset.Ico (weightBefore cs i)
            (weightBefore cs i + (cs.get ⟨i, hi⟩).channel.weight) := by
      ext v
      simp only [Finset.mem_filter, Finset.mem_Ico]
      constructor
      · rintro ⟨⟨hv0, hvr⟩, hmap⟩
        obtain ⟨ch, hch, hchid⟩ := Option.map_eq_some'.mp hmap
        obtain ⟨j, hj, hja, hjb⟩ := walkWeights_exists_interval cs v hv0 hvr
        have hj2 := walkWeights_interval cs v hw0 j hj hja hjb
        have : ch = (cs.get ⟨j, hj⟩).channel := Option.some.inj (hch.symm.trans hj2)
        have hij : i = j := walkWeights_index_unique cs hnd i j hi hj
          (by rw [← hchid, this])
        subst hij
        exact ⟨hja, hjb⟩
      · rintro ⟨h1, h2⟩
        have hv0 : 0 ≤ v := le_trans (weightBefore_nonneg cs hw0 i) h1
        have hvr : v < totalWeight cs :=
          lt_of_lt_of_le h2 (weightBefore_add_le_total cs hw0 i hi)
        refine ⟨⟨hv0, hvr⟩, ?_⟩
        rw [walkWeights_interval cs v hw0 i hi h1 h2]
        rfl
    rw [hset, Int.card_Ico]
    congr 1
    omega

/-- C9 witness: with weights [1, 3] and draw 1, a candidate is returned, the
draw selects the weight-3 candidate, and that candidate wins 3 of the 4
possible draw values. -/
theorem c9_witness :
    ((Finset.Ico (0 : Int)
        (totalWeight [⟨{ id := 1, type := 0, weight := 1, onlyChat := false
                         allowStream := fun _ => true }, false⟩,
                      ⟨{ id := 2, type := 0, weight := 3, onlyChat := false
                         allowStream := fun _ => true }, false⟩])).filter
      (fun v => (walkWeights v
          [⟨{ id := 1, type := 0, weight := 1, onlyChat := false
              allowStream := fun _ => true }, false⟩,
           ⟨{ id := 2, type := 0, weight := 3, onlyChat := false
              allowStream := fun _ => true }, false⟩]).map (fun ch => ch.id)
        = some 2)).card = 3 :=
  (c9_weighted_walk
    [⟨{ id := 1, type := 0, weight := 1, onlyChat := false
        allowStream := fun _ => true }, false⟩,
     ⟨{ id := 2, type := 0, weight := 3, onlyChat := false
        allowStream := fun _ => true }, false⟩] 1
    (by simp [List.forall_mem_cons]) (by decide) (by decide) (by decide)).2.2
    1 (by decide)

/-! Helper lemmas relating counting, eligibility and selection. -/

lemma countValid_eq_length (cc : Chooser) (now : Int)
    (filters : List ChannelsFilterFunc) (modelName : String) :
    ∀ ids : List Nat, countValidChannels cc now ids filters modelName
      = (validChannels cc now filters modelName ids).length := by
  intro ids
  induction ids with
  | nil => rfl
  | cons id rest ih =>
    cases h : channelEligible cc now filters modelName id with
    | none =>
      simp [countValidChannels, validChannels, List.countP_cons, List.filterMap_cons, h] at ih ⊢
      exact ih
    | some choice =>
      simp [countValidChannels, validChannels, List.countP_cons, List.filterMap_cons, h] at ih ⊢
      exact ih

lemma channelEligible_spec (cc : Chooser) (now : Int)
    (filters : List ChannelsFilterFunc) (modelName : String) (id : Nat)
    (choice : ChannelChoice)
    (h : channelEligible cc now filters modelName id = some choice) :
    cc.channels id = some choice ∧ choice.disable = false ∧
      IsInCooldown cc now id modelName = false ∧
      filters.any (fun f => f id choice) = false := by
  rw [channelEligible] at h
  cases hch : cc.channels id with
  | none => rw [hch] at h; simp at h
  | some c0 =>
    rw [hch] at h
    dsimp only at h
    by_cases h1 : c0.disable = true
    · rw [if_pos h1] at h; simp at h
    · rw [if_neg h1] at h
      by_cases h2 : IsInCooldown cc now id modelName = true
      · rw [if_pos h2] at h; simp at h
      · rw [if_neg h2] at h
        by_cases h3 : (filters.any fun f => f id c0) = true
        · rw [if_pos h3] at h; simp at h
        · rw [if_neg h3] at h
          obtain rfl : c0 = choice := Option.some.inj h
          simp only [Bool.not_eq_true] at h1 h2 h3
          exact ⟨rfl, h1, h2, h3⟩

lemma validChannels_mem (cc : Chooser) (now : Int)
    (filters : List ChannelsFilterFunc) (modelName : String) (ids : List Nat)
    (choice : ChannelChoice)
    (h : choice ∈ validChannels cc now filters modelName ids) :
    ∃ id ∈ ids, channelEligible cc now filters modelName id = some choice := by
  rw [validChannels] at h
  obtain ⟨id, hid, he⟩ := List.mem_filterMap.mp h
  exact ⟨id, hid, he⟩

lemma checkSticky_ctx_none (cfg : Config) (cc : Chooser) (now : Int)
    (channelIds : List Nat) (filters : List ChannelsFilterFunc)
    (modelName : String) (redis : Redis) :
    checkStickySession cfg cc now channelIds filters modelName none redis
      = (none, StickyEffect.untouched) := rfl

lemma balancer_ctx_none_isSome (cfg : Config) (cc : Chooser) (now : Int)
    (tier : List Nat) (filters : List ChannelsFilterFunc) (modelName : String)
    (redis : Redis) (rand : Int → Int)
    (hwAll : ∀ id choice, cc.channels id = some choice → 1 ≤ choice.channel.weight)
    (hrand : ∀ t : Int, 0 < t → 0 ≤ rand t ∧ rand t < t) :
    (balancer cfg cc now tier filters modelName none redis rand).isSome = true ↔
      validChannels cc now filters modelName tier ≠ [] := by
  rw [balancer, checkSticky_ctx_none]
  dsimp only
  cases hv : validChannels cc now filters modelName tier with
  | nil => simp
  | cons c0 rest =>
    cases rest with
    | nil => simp
    | cons c1 rest2 =>
      have hwv : ∀ c ∈ validChannels cc now filters modelName tier,
          1 ≤ c.channel.weight := by
        intro c hc
        obtain ⟨id, _, he⟩ := validChannels_mem cc now filters modelName tier c hc
        exact hwAll id c (channelEligible_spec cc now filters modelName id c he).1
      rw [hv] at hwv
      have htot : 0 < totalWeight (c0 :: c1 :: rest2) := by
        have h0 := hwv c0 (List.mem_cons_self ..)
        have hrest : 0 ≤ totalWeight (c1 :: rest2) :=
          totalWeight_nonneg _ (fun x hx =>
            le_trans (by omega) (hwv x (List.mem_cons_of_mem _ hx)))
        simp only [totalWeight, List.map_cons, List.sum_cons] at hrest ⊢
        omega
      obtain ⟨hr0, hrlt⟩ := hrand _ htot
      obtain ⟨j, hj, hja, hjb⟩ := walkWeights_exists_interval (c0 :: c1 :: rest2)
        (rand (totalWeight (c0 :: c1 :: rest2))) hr0 hrlt
      rw [walkWeights_interval (c0 :: c1 :: rest2) _
        (fun x hx => le_trans (by omega) (hwv x hx)) j hj hja hjb]
      simp

lemma tierWalk_isSome (cfg : Config) (cc : Chooser) (now : Int)
    (filters : List ChannelsFilterFunc) (modelName : String) (redis : Redis)
    (rand : Int → Int)
    (hwAll : ∀ id choice, cc.channels id = some choice → 1 ≤ choice.channel.weight)
    (hrand : ∀ t : Int, 0 < t → 0 ≤ rand t ∧ rand t < t) :
    ∀ tiers : List (List Nat),
      (tierWalk cfg cc now filters modelName none redis rand tiers).isSome = true ↔
        ∃ tier ∈ tiers, validChannels cc now filters modelName tier ≠ [] := by
  intro tiers
  induction tiers with
  | nil => simp [tierWalk]
  | cons tier rest ih =>
    rw [tierWalk]
    cases hb : balancer cfg cc now tier filters modelName none redis rand with
    | some ch =>
      have : validChannels cc now filters modelName tier ≠ [] := by
        have := (balancer_ctx_none_isSome cfg cc now tier filters modelName redis
          rand hwAll hrand).mp (by rw [hb]; rfl)
        exact this
      simp only [Option.isSome_some, true_iff]
      exact ⟨tier, List.mem_cons_self .., this⟩
    | none =>
      have hempty : validChannels cc now filters modelName tier = [] := by
        by_contra hne
        have := (balancer_ctx_none_isSome cfg cc now tier filters modelName redis
          rand hwAll hrand).mpr hne
        rw [hb] at this
        simp at this
      rw [ih]
      constructor
      · intro ⟨t, ht, hne⟩
        exact ⟨t, List.mem_cons_of_mem _ ht, hne⟩
      · intro ⟨t, ht, hne⟩
        rcases List.mem_cons.mp ht with rfl | ht2
        · exact absurd hempty hne
        · exact ⟨t, ht2, hne⟩

/-- C6 counterexample: group g serves only the wildcard pattern gpt-*; for
model gpt-4, Next resolves the pattern through the matcher and returns a
channel, while CountAvailableChannels, which does no fallback resolution,
returns 0 — so the count is not "nonzero whenever Next returns a channel". -/
theorem c6_counterexample :
    (Next cexConfig cexWildMatch cexWildChooser 0 "g" "gpt-4" [] cexRedis
        (fun _ => 0)).isSome = true ∧
    CountAvailableChannels cexWildChooser 0 "g" "gpt-4" [] = 0 := by
  exact ⟨by decide, by decide⟩

/-- C6 amended: for a model name that is an exact key of the group's rule map,
CountAvailableChannels equals the per-tier count of channels the balancer
would consider eligible, summed over the very tier list Next walks, and (for
positive weights and in-range draws) it is nonzero exactly when Next returns a
channel.  When the model name is only reachable through the
case-insensitive/wildcard fallback, Next can return a channel while the count
is 0. -/
theorem c6_count_refines_next (cfg : Config) (mats : Matchers) (cc : Chooser)
    (now : Int) (group modelName : String) (filters : List ChannelsFilterFunc)
    (redis : Redis) (rand : Int → Int) (ms : List (String × List (List Nat)))
    (tiers : List (List Nat))
    (hg : cc.rule group = some ms) (hm : lookupModel ms modelName = some tiers)
    (hwAll : ∀ id choice, cc.channels id = some choice → 1 ≤ choice.channel.weight)
    (hrand : ∀ t : Int, 0 < t → 0 ≤ rand t ∧ rand t < t) :
    (CountAvailableChannels cc now group modelName filters =
      (tiers.map
        (fun tier => (validChannels cc now filters modelName tier).length)).sum) ∧
    ((Next cfg mats cc now group modelName filters redis rand).isSome = true ↔
      0 < CountAvailableChannels cc now group modelName filters) := by
  have hcount : CountAvailableChannels cc now group modelName filters =
      (tiers.map
        (fun tier => (validChannels cc now filters modelName tier).length)).sum := by
    simp only [CountAvailableChannels, hg, hm]
    by_cases he : tiers.isEmpty
    · rw [if_pos he]
      rw [List.isEmpty_iff.mp he]
      rfl
    · rw [if_neg he]
      simp only [countValid_eq_length]
  refine ⟨hcount, ?_⟩
  simp only [Next, hg, hm]
  by_cases he : tiers.isEmpty
  · rw [if_pos he]
    rw [hcount, List.isEmpty_iff.mp he]
    simp
  · rw [if_neg he]
    rw [tierWalk_isSome cfg cc now filters modelName redis rand hwAll hrand tiers]
    rw [hcount]
    constructor
    · intro ⟨tier, ht, hne⟩
      have hpos : 0 < (validChannels cc now filters modelName tier).length :=
        List.length_pos.mpr hne
      have hle : (validChannels cc now filters modelName tier).length ≤
          (tiers.map
            (fun t => (validChannels cc now filters modelName t).length)).sum :=
        List.le_sum_of_mem (List.mem_map_of_mem _ ht)
      omega
    · intro hpos
      by_contra hno
      push_neg at hno
      have hzero : ∀ x ∈ tiers.map
          (fun t => (validChannels cc now filters modelName t).length), x = 0 := by
        intro x hx
        obtain ⟨tier, ht, rfl⟩ := List.mem_map.mp hx
        have := hno tier ht
        simp only [ne_eq, not_not] at this
        rw [this]
        rfl
      have := List.sum_eq_zero hzero
      omega

/-- C6 witness: with model m an exact key served by channels 1 and 2, the
count is 2 and Next succeeds. -/
theorem c6_witness :
    CountAvailableChannels cexChooser 0 "g" "m" [] =
      ([[1, 2]].map
        (fun tier => (validChannels cexChooser 0 [] "m" tier).length)).sum ∧
    ((Next cexConfig cexNoMatch cexChooser 0 "g" "m" [] cexRedis
        (fun _ => 0)).isSome = true ↔
      0 < CountAvailableChannels cexChooser 0 "g" "m" []) :=
  c6_count_refines_next cexConfig cexNoMatch cexChooser 0 "g" "m" [] cexRedis
    (fun _ => 0) [("m", [[1, 2]])] [[1, 2]] rfl rfl
    (fun id choice hch => by
      simp only [cexChooser] at hch
      split at hch
      · cases Option.some.inj hch
        simp [cexChan]
      · exact absurd hch (by simp))
    (fun t ht => ⟨le_refl 0, ht⟩)

/-! Helper lemmas about the retry loop. -/

lemma retryLoop_attemptCount_le (w : World) :
    ∀ i s, (retryLoop w i s).attemptCount ≤ s.attemptCount + i := by
  intro i
  induction i with
  | zero => intro s; simp [retryLoop]
  | succ i ih =>
    intro s
    rw [retryLoop]
    dsimp only
    split
    · dsimp only
      omega
    · split
      · dsimp only
        omega
      · split
        · dsimp only
          omega
        · split
          · dsimp only
            omega
          · split
            · dsimp only
              omega
            · exact le_trans (ih _) (by dsimp only; omega)

/-- C1.  The number of retry attempts after the failed first attempt is at
most min(configured max retries, the available-channel count frozen at retry
start); with configured max 5 and 2 available channels at most 2 retries; a
frozen count of 0, or a non-retryable first error, yields zero retries. -/
theorem c1_retry_budget (w : World) (cc0 : Chooser) (chan0 : Channel)
    (firstErr : ApiError) (firstDone : Bool) :
    ((relayRetryPhase w cc0 chan0 firstErr firstDone).final.attemptCount - 1 ≤
      min w.cfg.retryTimes
        (relayRetryPhase w cc0 chan0 firstErr firstDone).totalChannelsAtStart) ∧
    (w.cfg.retryTimes = 5 →
      (relayRetryPhase w cc0 chan0 firstErr firstDone).totalChannelsAtStart = 2 →
      (relayRetryPhase w cc0 chan0 firstErr firstDone).final.attemptCount - 1 ≤ 2) ∧
    ((relayRetryPhase w cc0 chan0 firstErr firstDone).totalChannelsAtStart = 0 →
      (relayRetryPhase w cc0 chan0 firstErr firstDone).final.attemptCount - 1 = 0) ∧
    (shouldRetry w.cfg w.req.pin (some firstErr) chan0.type = false →
      (relayRetryPhase w cc0 chan0 firstErr firstDone).final.attemptCount - 1 = 0) := by
  have hmain : (relayRetryPhase w cc0 chan0 firstErr firstDone).final.attemptCount
      ≤ 1 + (relayRetryPhase w cc0 chan0 firstErr firstDone).actualRetryTimes := by
    simp only [relayRetryPhase]
    exact le_trans (retryLoop_attemptCount_le w _ _) (by dsimp only; omega)
  have hactual : (relayRetryPhase w cc0 chan0 firstErr firstDone).actualRetryTimes ≤
      min w.cfg.retryTimes
        (relayRetryPhase w cc0 chan0 firstErr firstDone).totalChannelsAtStart := by
    simp only [relayRetryPhase]
    split
    · exact min_le_min (Nat.zero_le _) le_rfl
    · exact le_rfl
  have h1 : (relayRetryPhase w cc0 chan0 firstErr firstDone).final.attemptCount - 1 ≤
      min w.cfg.retryTimes
        (relayRetryPhase w cc0 chan0 firstErr firstDone).totalChannelsAtStart := by
    have := hmain
    omega
  refine ⟨h1, fun h5 h2 => ?_, fun h0 => ?_, fun hsr => ?_⟩
  · rw [h5, h2] at h1
    simpa using h1
  · have := hmain
    have hz : (relayRetryPhase w cc0 chan0 firstErr firstDone).actualRetryTimes = 0 := by
      have h2 := hactual
      rw [h0] at h2
      simpa using h2
    omega
  · have hz : (relayRetryPhase w cc0 chan0 firstErr firstDone).actualRetryTimes = 0 := by
      simp only [relayRetryPhase]
      rw [if_pos (Or.inr (by simp [hsr]))]
      simp
    have := hmain
    omega

/-- C1 witness: in the fixture world, configured retries 1 and two available
channels yield at most min(1, 2) = 1 retry; and a non-retryable 408 first
error yields zero retries. -/
theorem c1_witness :
    ((relayRetryPhase cexWorld cexChooser (cexChan 1) cexErr500
        false).final.attemptCount - 1 ≤
      min cexWorld.cfg.retryTimes
        (relayRetryPhase cexWorld cexChooser (cexChan 1) cexErr500
          false).totalChannelsAtStart) ∧
    ((relayRetryPhase cexWorld cexChooser (cexChan 1)
        { cexErr500 with statusCode := 408 } false).final.attemptCount - 1 = 0) :=
  ⟨(c1_retry_budget cexWorld cexChooser (cexChan 1) cexErr500 false).1,
   (c1_retry_budget cexWorld cexChooser (cexChan 1)
      { cexErr500 with statusCode := 408 } false).2.2.2 (by decide)⟩

/-- C7 counterexample: budget 1, ceiling 60s; the single retry attempt fails
retryably and the loop exits by budget exhaustion while the clock already
reads 100s > 60s, yet the returned error is the raw upstream 500, not the
synthetic timeout error — exceeding the ceiling does not force the synthetic
error. -/
theorem c7_counterexample :
    (relayRetryPhase cexWorld cexChooser (cexChan 1) cexErr500
        false).final.apiErr = cexErr500 ∧
    (relayRetryPhase cexWorld cexChooser (cexChan 1) cexErr500
        false).final.apiErr ≠ syntheticTimeoutErr ∧
    (relayRetryPhase cexWorld cexChooser (cexChan 1) cexErr500
        false).final.timedOut = false ∧
    cexWorld.elapsed
        (relayRetryPhase cexWorld cexChooser (cexChan 1) cexErr500
          false).final.attemptCount > cexWorld.cfg.retryTimeOut := by
  exact ⟨by decide, by decide, by decide, by decide⟩

/-- C7 amended: only when the wall-clock ceiling is observed exceeded at the
start-of-iteration check does the loop stop with the synthetic
exhausted/timeout error and perform no further attempts; when the loop instead
ends by budget exhaustion or a stop condition before the next check, the last
attempt's raw error is returned even if the ceiling was already exceeded. -/
theorem c7_timeout_precedence (w : World) (i : Nat) (s : LoopSt)
    (h : w.elapsed s.attemptCount > w.cfg.retryTimeOut) :
    (retryLoop w (i + 1) s).apiErr = syntheticTimeoutErr ∧
    (retryLoop w (i + 1) s).timedOut = true ∧
    (retryLoop w (i + 1) s).attempted = s.attempted ∧
    (retryLoop w (i + 1) s).attemptCount = s.attemptCount := by
  rw [retryLoop]
  dsimp only
  rw [if_pos h]
  exact ⟨rfl, rfl, rfl, rfl⟩

/-- C7 witness: a loop state whose clock reads past the ceiling at the check
yields the synthetic error with no further attempt. -/
theorem c7_witness :
    (retryLoop cexWorld 1
        { cc := cexChooser, skip := [1], channel := cexChan 1
          apiErr := cexErr500, success := false, attemptCount := 2
          attempted := [1], timedOut := false }).apiErr = syntheticTimeoutErr ∧
    (retryLoop cexWorld 1
        { cc := cexChooser, skip := [1], channel := cexChan 1
          apiErr := cexErr500, success := false, attemptCount := 2
          attempted := [1], timedOut := false }).attempted = [1] :=
  ⟨(c7_timeout_precedence cexWorld 0
      { cc := cexChooser, skip := [1], channel := cexChan 1
        apiErr := cexErr500, success := false, attemptCount := 2
        attempted := [1], timedOut := false } (by decide)).1,
   (c7_timeout_precedence cexWorld 0
      { cc := cexChooser, skip := [1], channel := cexChan 1
        apiErr := cexErr500, success := false, attemptCount := 2
        attempted := [1], timedOut := false } (by decide)).2.2.1⟩

/-! Helper lemmas: every selected channel passed every filter. -/

lemma checkSticky_sound (cfg : Config) (cc : Chooser) (now : Int)
    (channelIds : List Nat) (filters : List ChannelsFilterFunc)
    (modelName : String) (ctx : Option Ctx) (redis : Redis) (ch : Channel)
    (h : (checkStickySession cfg cc now channelIds filters modelName ctx
      redis).1 = some ch) :
    ∃ id choice, cc.channels id = some choice ∧ choice.channel = ch ∧
      filters.any (fun f => f id choice) = false := by
  rw [checkStickySession.eq_def] at h
  split at h
  · simp at h
  · split at h
    · simp at h
    · split at h
      · simp at h
      · split at h
        · simp at h
        · next firstChoice _ =>
          dsimp only at h
          split at h
          · simp at h
          · split at h
            · simp at h
            · next mappedId _ =>
              split at h
              · simp at h
              · split at h
                · simp at h
                · next mappedChoice hmc =>
                  split at h
                  · simp at h
                  · split at h
                    · simp at h
                    · split at h
                      · simp at h
                      · split at h
                        · simp at h
                        · next h4 =>
                          simp only at h
                          exact ⟨mappedId.toNat, mappedChoice, hmc,
                            Option.some.inj h, by simpa using h4⟩

lemma balancer_sound (cfg : Config) (cc : Chooser) (now : Int)
    (channelIds : List Nat) (filters : List ChannelsFilterFunc)
    (modelName : String) (ctx : Option Ctx) (redis : Redis) (rand : Int → Int)
    (ch : Channel)
    (hb : balancer cfg cc now channelIds filters modelName ctx redis rand
      = some ch) :
    ∃ id choice, cc.channels id = some choice ∧ choice.channel = ch ∧
      filters.any (fun f => f id choice) = false := by
  rw [balancer] at hb
  split at hb
  · next st hst =>
    exact checkSticky_sound cfg cc now channelIds filters modelName ctx redis
      ch (hst.trans (congrArg some (Option.some.inj hb)))
  · next hnone =>
    dsimp only at hb
    cases hv : validChannels cc now filters modelName channelIds with
    | nil =>
      rw [hv] at hb
      simp at hb
    | cons c0 rest0 =>
      cases rest0 with
      | nil =>
        rw [hv] at hb
        dsimp only at hb
        have hmemv : c0 ∈ validChannels cc now filters modelName channelIds := by
          rw [hv]
          exact List.mem_cons_self ..
        obtain ⟨id, _, he⟩ := validChannels_mem cc now filters modelName
          channelIds c0 hmemv
        obtain ⟨hch, _, _, hany⟩ := channelEligible_spec cc now filters modelName
          id c0 he
        exact ⟨id, c0, hch, Option.some.inj hb, hany⟩
      | cons c1 rest =>
        rw [hv] at hb
        dsimp only at hb
        obtain ⟨choice, hmemv, hcheq⟩ := walkWeights_mem _ _ ch hb
        rw [← hv] at hmemv
        obtain ⟨id, _, he⟩ := validChannels_mem cc now filters modelName
          channelIds choice hmemv
        obtain ⟨hch, _, _, hany⟩ := channelEligible_spec cc now filters modelName
          id choice he
        exact ⟨id, choice, hch, hcheq, hany⟩

lemma sound_excludes_skip (cc : Chooser) (filters : List ChannelsFilterFunc)
    (skip : List Nat) (ch : Channel) (hwf : ChooserWF cc)
    (hmem : FilterChannelId skip ∈ filters)
    (hsound : ∃ id choice, cc.channels id = some choice ∧ choice.channel = ch ∧
      filters.any (fun f => f id choice) = false) :
    ch.id ∉ skip := by
  obtain ⟨id, choice, hch, hcheq, hany⟩ := hsound
  have hid : ch.id = id := by rw [← hcheq]; exact hwf id choice hch
  have hfalse : FilterChannelId skip id choice = false := by
    rw [List.any_eq_false] at hany
    have := hany (FilterChannelId skip) hmem
    simpa using this
  rw [FilterChannelId] at hfalse
  rw [hid]
  simpa using hfalse

lemma tierWalk_excl (cfg : Config) (cc : Chooser) (now : Int)
    (filters : List ChannelsFilterFunc) (modelName : String) (ctx : Option Ctx)
    (redis : Redis) (rand : Int → Int) (skip : List Nat) (ch : Channel)
    (hwf : ChooserWF cc) (hmem : FilterChannelId skip ∈ filters) :
    ∀ tiers, tierWalk cfg cc now filters modelName ctx redis rand tiers
      = some ch → ch.id ∉ skip := by
  intro tiers
  induction tiers with
  | nil => intro h; simp [tierWalk] at h
  | cons tier rest ih =>
    intro h
    rw [tierWalk] at h
    split at h
    · next ch2 hb =>
      exact sound_excludes_skip cc filters skip ch hwf hmem
        (balancer_sound cfg cc now tier filters modelName ctx redis rand ch
          (hb.trans (congrArg some (Option.some.inj h))))
    · exact ih h

lemma nextByValidated_excl (cfg : Config) (cc : Chooser) (now : Int)
    (group modelName : String) (ctx : Option Ctx)
    (filters : List ChannelsFilterFunc) (redis : Redis) (rand : Int → Int)
    (skip : List Nat) (ch : Channel) (hwf : ChooserWF cc)
    (hmem : FilterChannelId skip ∈ filters)
    (h : NextByValidatedModel cfg cc now group modelName ctx filters redis rand
      = some ch) :
    ch.id ∉ skip := by
  rw [NextByValidatedModel] at h
  split at h
  · simp at h
  · split at h
    · simp at h
    · split at h
      · simp at h
      · exact tierWalk_excl cfg cc now filters modelName ctx redis rand skip ch
          hwf hmem _ h

lemma buildFilters_mem (req : ReqCtx) (skip : List Nat) :
    FilterChannelId skip ∈ buildFilters req skip := by
  rw [buildFilters]
  exact List.mem_append_right _ (List.mem_cons_self ..)

lemma getProviderChannel_excl (cfg : Config) (mats : Matchers) (cc : Chooser)
    (now : Int) (req : ReqCtx) (db : Db) (ctx : Option Ctx) (redis : Redis)
    (rand : Int → Int) (skip : List Nat) (ch : Channel) (hwf : ChooserWF cc)
    (hpin : ¬(req.pin.specificChannelId > 0 ∧ ¬(req.pin.ignore : Prop))) :
    ∀ chain, getProviderChannel cfg mats cc now req db ctx redis rand skip chain
      = some ch → ch.id ∉ skip := by
  intro chain
  induction chain with
  | nil => intro h; simp [getProviderChannel] at h
  | cons group rest ih =>
    intro h
    rw [getProviderChannel] at h
    split at h
    · exact ih h
    · next matched hmm2 =>
      split at h
      · exact ih h
      · next ch2 hfetch =>
        rw [fetchChannel, if_neg hpin] at hfetch
        exact nextByValidated_excl cfg cc now group matched ctx
          (buildFilters req skip) redis rand skip ch hwf
          (buildFilters_mem req skip)
          (hfetch.trans (congrArg some (Option.some.inj h)))

lemma retryLoop_nodup (w : World)
    (hpin : ¬(w.req.pin.specificChannelId > 0 ∧ ¬(w.req.pin.ignore : Prop))) :
    ∀ i s, ChooserWF s.cc → s.attempted = s.skip ++ [s.channel.id] →
      s.attempted.Nodup → (retryLoop w i s).attempted.Nodup := by
  intro i
  induction i with
  | zero =>
    intro s _ _ hnd
    simpa [retryLoop] using hnd
  | succ i ih =>
    intro s hwf hatt hnd
    rw [retryLoop]
    dsimp only
    have hcc : (shouldCooldowns w.cfg s.cc (w.nowAt s.attemptCount) s.skip
        s.channel w.req.newModel s.apiErr).cc.channels = s.cc.channels :=
      shouldCooldowns_channels ..
    have hwf1 : ChooserWF (shouldCooldowns w.cfg s.cc (w.nowAt s.attemptCount)
        s.skip s.channel w.req.newModel s.apiErr).cc := by
      intro id choice hch
      rw [hcc] at hch
      exact hwf id choice hch
    have hskip : (shouldCooldowns w.cfg s.cc (w.nowAt s.attemptCount) s.skip
        s.channel w.req.newModel s.apiErr).skip = s.attempted := by
      rw [shouldCooldowns_skip, hatt]
    split
    · simpa using hnd
    · split
      · simpa using hnd
      · next ch hsel =>
        have hexcl : ch.id ∉ s.attempted := by
          rw [← hskip]
          exact getProviderChannel_excl w.cfg w.mats _ (w.nowAt s.attemptCount)
            w.req w.db w.ctx (w.redis s.attemptCount) (w.rand s.attemptCount)
            _ ch hwf1 hpin w.req.groupChain hsel
        have hnd2 : (s.attempted ++ [ch.id]).Nodup := by
          rw [List.nodup_append]
          refine ⟨hnd, List.nodup_singleton _, fun a ha hb => ?_⟩
          rw [List.mem_singleton.mp hb] at ha
          exact hexcl ha
        split
        · simpa using hnd
        · split
          · simpa using hnd2
          · split
            · simpa using hnd2
            · apply ih
              · exact hwf1
              · show s.attempted ++ [ch.id]
                  = (shouldCooldowns w.cfg s.cc (w.nowAt s.attemptCount) s.skip
                      s.channel w.req.newModel s.apiErr).skip ++ [ch.id]
                rw [hskip]
              · exact hnd2

/-- C2.  Within one request's retry sequence no channel id is attempted twice:
shouldCooldowns appends the attempted channel's id to the skip-list before
each reselection, every selection through NextByValidatedModel with the
skip-list filter returns a channel outside the skip-list, and the ghost list
of channel ids attempted by the retry phase has no duplicates. -/
theorem c2_no_channel_reuse (w : World) (cc0 : Chooser) (chan0 : Channel)
    (firstErr : ApiError) (firstDone : Bool) (hwf : ChooserWF cc0) :
    (∀ cfg cc now skip channel modelName apiErr,
      (shouldCooldowns cfg cc now skip channel modelName apiErr).skip
        = skip ++ [channel.id]) ∧
    (∀ cfg cc now group modelName ctx filters redis rand skip ch,
      ChooserWF cc → FilterChannelId skip ∈ filters →
      NextByValidatedModel cfg cc now group modelName ctx filters redis rand
        = some ch → ch.id ∉ skip) ∧
    (relayRetryPhase w cc0 chan0 firstErr firstDone).final.attempted.Nodup := by
  refine ⟨fun cfg cc now skip channel modelName apiErr =>
    shouldCooldowns_skip cfg cc now skip channel modelName apiErr,
    fun cfg cc now group modelName ctx filters redis rand skip ch hwf2 hmem h =>
      nextByValidated_excl cfg cc now group modelName ctx filters redis rand
        skip ch hwf2 hmem h, ?_⟩
  by_cases hpin : w.req.pin.specificChannelId > 0 ∧ ¬(w.req.pin.ignore : Prop)
  · have hsr : shouldRetry w.cfg w.req.pin (some firstErr) chan0.type = false := by
      rw [shouldRetry]
      rw [if_pos (Or.inr hpin)]
    simp only [relayRetryPhase]
    rw [if_pos (Or.inr (by simp [hsr]))]
    simp [retryLoop]
  · simp only [relayRetryPhase]
    exact retryLoop_nodup w hpin _ _ hwf rfl (by simp)

/-- C2 witness: the fixture retry run attempts channels 1 then 2, with no
duplicate. -/
theorem c2_witness :
    (relayRetryPhase cexWorld cexChooser (cexChan 1) cexErr500
      false).final.attempted.Nodup :=
  (c2_no_channel_reuse cexWorld cexChooser (cexChan 1) cexErr500 false
    (fun id choice hch => by
      simp only [cexChooser] at hch
      split at hch
      · cases Option.some.inj hch
        simp only [cexChan]
      · exact absurd hch (by simp))).2.2

end DoneHub
